import Mathlib

/-!
Verification of the oecdpolicyanalysis core: the document tree model
(src/app/preprocessing/adobe/model.py) and the summarize / question-answering
chains (src/app/llm.py), as a shallow embedding.

Python dictionaries are modelled as association lists (insertion order),
machine strings as Lean String, Python None via Option, and raised runtime
errors via Except PyErr.
-/

/-- Python runtime errors that the embedded code paths can raise. -/
inductive PyErr where
  | keyError (key : String)
  | attributeError (attr : String)
  | typeError (msg : String)
  | stopIteration
deriving DecidableEq, Repr

/-- A node of the document tree (class Section in model.py), restricted to the
fields the verified operations read.  The parent weak reference and the
paragraphs list are never read by the code under verification and are omitted.
The field text is NOT defined by class Section in
src/app/preprocessing/adobe/model.py. -/
inductive Section where
  | mk (id : String) (title : Option String) (pages : List Nat)
       (section_type : Option String) (text : String)
       (subsections : List Section)

/-- The id of a section (attribute id). -/
def Section.id : Section → String
  | .mk i _ _ _ _ _ => i

/-- The optional title of a section (attribute title). -/
def Section.title : Section → Option String
  | .mk _ t _ _ _ _ => t

/-- The set of pages a section spans (attribute pages), modelled as a list. -/
def Section.pages : Section → List Nat
  | .mk _ _ p _ _ _ => p

/-- The optional section type (attribute section_type). -/
def Section.section_type : Section → Option String
  | .mk _ _ _ st _ _ => st

/-- Modelled from the spec: the full extracted text of a section.  Section.text
is read by FetchSectionsTool._run and create_summaries_chain in src/app/llm.py
but no text attribute or property is defined on class Section in
src/app/preprocessing/adobe/model.py; the spec describes it as the section's
full extracted text, so it is carried here as an abstract string field. -/
def Section.text : Section → String
  | .mk _ _ _ _ tx _ => tx

/-- The ordered subsections of a section (attribute subsections). -/
def Section.subsections : Section → List Section
  | .mk _ _ _ _ _ sub => sub

/-- Section.__init__ in model.py.  Note that the body assigns the empty string
to self.id, discarding the id argument; pages and subsections default to empty
when absent.  The modelled text field is initialised empty (a fresh Section has
no extracted text). -/
def Section.init (_id : String) (title : Option String) (pages : Option (List Nat))
    (section_type : Option String) (subsections : Option (List Section)) : Section :=
  Section.mk "" title (pages.getD []) section_type "" (subsections.getD [])

/-- Document.__init__ in model.py: calls Section.__init__ with id "root" and
section_type "document". -/
def Document.init (title : Option String) (pages : Option (List Nat))
    (subsections : Option (List Section)) : Section :=
  Section.init "root" title pages (some "document") subsections

mutual

/-- The regex substitution re.sub of pattern caret (digits-plus dot-optional)-plus
with the empty string, on a list of characters: greedily consume leading blocks,
each a run of digits followed by an optional single dot, and return the rest. -/
def dropBlocks : List Char → List Char
  | [] => []
  | c :: cs => if c.isDigit then afterDigits cs else c :: cs

/-- Helper for dropBlocks: consume the remaining digits of the current run,
then an optional dot, then try to consume further blocks. -/
def afterDigits : List Char → List Char
  | [] => []
  | c :: cs =>
    if c.isDigit then afterDigits cs
    else if c = '.' then dropBlocks cs
    else c :: cs

end

/-- Python str.lstrip: drop leading whitespace characters. -/
def pyLstrip (l : List Char) : List Char := l.dropWhile Char.isWhitespace

/-- Python str.rstrip: drop trailing whitespace characters. -/
def pyRstrip (l : List Char) : List Char := (l.reverse.dropWhile Char.isWhitespace).reverse

/-- Section.title_clean in model.py: re.sub of a leading numbering prefix
followed by lstrip.  When title is None, re.sub raises a TypeError, so the
property is only defined for sections whose title is present. -/
def Section.title_clean (s : Section) : Except PyErr String :=
  match s.title with
  | none => .error (.typeError "expected string or bytes-like object")
  | some t => .ok (String.mk (pyLstrip (dropBlocks t.data)))

/-- Whether a character is a dot-leader character, i.e. underscore or dot,
the character class of the regex in InterimElement.text. -/
def isLeadChar (c : Char) : Bool := c = '_' || c = '.'

/-- re.sub of pattern (underscore-or-dot) repeated three-or-more with the empty
string: delete every maximal run of 3+ consecutive underscore/dot characters,
keep shorter runs.  The first argument accumulates the current pending run in
reverse. -/
def scrubAux (pending : List Char) : List Char → List Char
  | [] => if 3 ≤ pending.length then [] else pending.reverse
  | c :: cs =>
    if isLeadChar c then scrubAux (c :: pending) cs
    else (if 3 ≤ pending.length then [] else pending.reverse) ++ c :: scrubAux [] cs

/-- Delete runs of 3 or more consecutive underscore/dot characters. -/
def scrubLeaders (l : List Char) : List Char := scrubAux [] l

/-- Python str.isnumeric / str.isdigit for the ASCII fragment relevant here:
true when the string is non-empty and all characters are decimal digits. -/
def pyIsNumeric (l : List Char) : Bool := !l.isEmpty && l.all Char.isDigit

/-- InterimElement (model.py), restricted to the one raw field the text
cleanup reads: raw.get of the key Text. -/
structure InterimElement where
  rawText : Option String

/-- InterimElement.text in model.py: the walrus-if makes an absent or empty
raw text fall to the None branch; otherwise delete dot/underscore leader runs,
strip trailing whitespace, discard purely numeric results, discard empty or
single-newline results, and return the cleaned string otherwise. -/
def InterimElement.text (e : InterimElement) : Option String :=
  match e.rawText with
  | none => none
  | some s =>
    if s = "" then none
    else
      let r1 := scrubLeaders s.data
      let r2 := pyRstrip r1
      if pyIsNumeric r2 then none
      else if String.mk r2 = "" || String.mk r2 = "\n" then none
      else some (String.mk r2)

/-- One record produced by FetchSectionsTool._run for a resolved section:
the dict with keys title (the cleaned title), id and text. -/
structure FetchRecord where
  title : String
  id : String
  text : String
deriving DecidableEq, Repr

/-- Attribute access performed by FetchSectionsTool._run on a value taken from
the section_summaries mapping: reads title_clean, id and text, which only
exist on Section objects.  title_clean itself raises on a missing title. -/
def getRecSection (s : Section) : Except PyErr FetchRecord :=
  match s.title_clean with
  | .error e => .error e
  | .ok tc => .ok (FetchRecord.mk tc s.id s.text)

/-- The same attribute access applied to a value of the declared
SectionSummaryDict shape (an optional string): neither None nor str has a
title_clean attribute, so the access raises AttributeError at once. -/
def getRecOptStr (_v : Option String) : Except PyErr FetchRecord :=
  .error (.attributeError "title_clean")

/-- The loop body of FetchSectionsTool._run over an already-sorted id list:
resolve each id in the mapping (KeyError when absent), perform the attribute
accesses, and append the record. -/
def fetchLoop (getRec : α → Except PyErr FetchRecord) (m : List (String × α)) :
    List String → Except PyErr (List FetchRecord)
  | [] => .ok []
  | i :: rest =>
    match List.lookup i m with
    | none => .error (.keyError i)
    | some v =>
      match getRec v with
      | .error e => .error e
      | .ok r =>
        match fetchLoop getRec m rest with
        | .error e => .error e
        | .ok rs => .ok (r :: rs)

/-- FetchSectionsTool._run in llm.py: sorts the supplied section ids ascending
and resolves each against the section_summaries mapping.  The reasoning
argument is accepted but unused, exactly as in the source. -/
def FetchSectionsTool.run (getRec : α → Except PyErr FetchRecord)
    (m : List (String × α)) (_reasoning : String) (section_ids : List String) :
    Except PyErr (List FetchRecord) :=
  fetchLoop getRec m (List.insertionSort (· ≤ ·) section_ids)

/-- The structured output schema SectionSummaryOutput: an optional summary. -/
structure SectionSummaryOutput where
  summary : Option String
deriving DecidableEq, Repr

/-- A Python object as produced by _create_structured_metadata: strings,
integers, None, lists and string-keyed dicts (in insertion order). -/
inductive PyObj where
  | str (s : String)
  | int (n : Nat)
  | pynone
  | list (l : List PyObj)
  | dict (fields : List (String × PyObj))

/-- The top-level keys of a Python object (empty for non-dicts). -/
def PyObj.keys : PyObj → List String
  | .dict fields => fields.map Prod.fst
  | _ => []

/-- An optional string as a Python object. -/
def pyOfOptStr : Option String → PyObj
  | none => .pynone
  | some s => .str s

mutual

/-- DocumentStructuredMetadata._create_structured_metadata in llm.py.
For a node whose section_type equals "document" it wraps title and projected
subsections in a dict stored under the single key "document"; for every other
node it first looks up the node id in section_summaries (KeyError when
absent), then builds the dict of title_clean, id, sorted pages and the summary
attribute of the looked-up value, adding a sections key only when the node has
subsections.  The mapping values are modelled as SectionSummaryOutput objects
because the code reads their summary attribute. -/
def create_structured_metadata (summaries : List (String × SectionSummaryOutput)) :
    Section → Except PyErr PyObj
  | .mk i t p st tx subs =>
    if st = some "document" then
      match csmList summaries subs with
      | .error e => .error e
      | .ok l => .ok (.dict [("document", .dict [("title", pyOfOptStr t), ("sections", .list l)])])
    else
      match List.lookup i summaries with
      | none => .error (.keyError i)
      | some resp =>
        match (Section.mk i t p st tx subs).title_clean with
        | .error e => .error e
        | .ok tc =>
          match csmList summaries subs with
          | .error e => .error e
          | .ok l =>
            let base := [("title", PyObj.str tc), ("id", PyObj.str i),
              ("pages", PyObj.list ((List.insertionSort (· ≤ ·) p).map PyObj.int)),
              ("summary", pyOfOptStr resp.summary)]
            .ok (.dict (if l.isEmpty then base else base ++ [("sections", PyObj.list l)]))

/-- Projection of a list of subsections, in stored order, stopping at the
first error. -/
def csmList (summaries : List (String × SectionSummaryOutput)) :
    List Section → Except PyErr (List PyObj)
  | [] => .ok []
  | s :: rest =>
    match create_structured_metadata summaries s with
    | .error e => .error e
    | .ok x =>
      match csmList summaries rest with
      | .error e => .error e
      | .ok xs => .ok (x :: xs)

end

/-- The per-section loop body of create_summaries_chain: for a section with
non-empty text, invoke the summarizer (abstracting the structured-output model
call) on title_clean and text and record the returned optional summary; for a
section with empty text record None without any call.  The dict is modelled as
an association list in insertion order. -/
def summaryDictLoop (summarizer : String → String → Option String) :
    List Section → Except PyErr (List (String × Option String))
  | [] => .ok []
  | s :: rest =>
    if 0 < s.text.length then
      match s.title_clean with
      | .error e => .error e
      | .ok tc =>
        match summaryDictLoop summarizer rest with
        | .error e => .error e
        | .ok d => .ok ((s.id, summarizer tc s.text) :: d)
    else
      match summaryDictLoop summarizer rest with
      | .error e => .error e
      | .ok d => .ok ((s.id, none) :: d)

/-- OpenAIPromptExecutor.create_summaries_chain in llm.py: builds the
summary dict over the given sections, but the function body has no return
statement, so on success the Python function returns None — modelled by
discarding the computed dict and producing none. -/
def create_summaries_chain (summarizer : String → String → Option String)
    (sections : List Section) : Except PyErr (Option (List (String × Option String))) :=
  match summaryDictLoop summarizer sections with
  | .error e => .error e
  | .ok _summary_dict => .ok none

/-- RefineIO in llm.py: the running intermediate answer plus the provenance
list of section ids. -/
structure RefineState where
  intermediate_answer : String
  section_ids : List String
deriving DecidableEq, Repr

/-- The parsed function_call part of a chat response: the function name and
the json-decoded arguments of the fetch_sections schema. -/
structure FunctionCall where
  name : String
  reasoning : String
  section_ids : List String
deriving DecidableEq, Repr

/-- A chat-model response, as read by parse_function_output: its direct
content string and its optional function call. -/
structure LLMResponse where
  content : String
  function_call : Option FunctionCall
deriving DecidableEq, Repr

/-- One element handed to the refine runnable by the for-loop in
generic_question_chain: a fetched section record when the tool branch ran, or
a single character when the loop iterates over a content string (Python
iterates a str character by character). -/
inductive SectionItem where
  | chr (c : Char)
  | record (r : FetchRecord)
deriving DecidableEq, Repr

/-- The value of the local variable fetched_sections in
generic_question_chain: a plain string in the direct-content branch, a list of
records in the tool branch. -/
inductive FetchedSections where
  | text (s : String)
  | records (l : List FetchRecord)
deriving DecidableEq, Repr

/-- What the for-loop iterates over: the characters of a string, or the
records of a list. -/
def FetchedSections.toItems : FetchedSections → List SectionItem
  | .text s => s.data.map SectionItem.chr
  | .records l => l.map SectionItem.record

/-- parse_function_output in llm.py: when the response content is empty and a
function call is present, dispatch it — resolving the tool by name, where any
name other than fetch_sections makes the next(filter(...)) call raise
StopIteration — and return the tool output; otherwise return the response
content string. -/
def parse_function_output (getRec : α → Except PyErr FetchRecord)
    (section_summaries : List (String × α)) (response : LLMResponse) :
    Except PyErr FetchedSections :=
  match response.function_call with
  | some fc =>
    if response.content = "" then
      if fc.name = "fetch_sections" then
        match FetchSectionsTool.run getRec section_summaries fc.reasoning fc.section_ids with
        | .error e => .error e
        | .ok rs => .ok (.records rs)
      else .error .stopIteration
    else .ok (.text response.content)
  | none => .ok (.text response.content)

/-- The refine for-loop of generic_question_chain as written in the source: an
iterative loop threading the refine_io accumulator through the refiner (the
abstracted refine_answer_runnable, which closes over the question). -/
def refineLoop (refiner : RefineState → SectionItem → RefineState) :
    RefineState → List SectionItem → RefineState
  | acc, [] => acc
  | acc, item :: rest => refineLoop refiner (refiner acc item) rest

/-- OpenAIPromptExecutor.generic_question_chain in llm.py, abstracting the two
model calls: the selection response is taken as input and the refine runnable
as a function.  Parses the response, then runs the refine loop over the
iterated items starting from RefineIO with empty answer and no section ids. -/
def generic_question_chain (getRec : α → Except PyErr FetchRecord)
    (refiner : RefineState → SectionItem → RefineState)
    (section_summaries : List (String × α)) (response : LLMResponse) :
    Except PyErr RefineState :=
  match parse_function_output getRec section_summaries response with
  | .error e => .error e
  | .ok fetched => .ok (refineLoop refiner (RefineState.mk "" []) fetched.toItems)

mutual

/-- The nodes of a tree that _create_structured_metadata looks up in the
summary mapping: every node whose section_type is not "document", in pre-order. -/
def sectionsNeedingSummary : Section → List Section
  | .mk i t p st tx subs =>
    (if st = some "document" then [] else [Section.mk i t p st tx subs]) ++ needingList subs

/-- The looked-up nodes of a list of subtrees, in order. -/
def needingList : List Section → List Section
  | [] => []
  | s :: rest => sectionsNeedingSummary s ++ needingList rest

end

/-- The top-level keys of a successfully projected metadata object (empty on
error). -/
def topKeysOf : Except PyErr PyObj → List String
  | .ok o => o.keys
  | .error _ => []

/-- An induction principle for the nested Section tree: to prove a property of
every section it suffices to prove it for a node assuming it for all its
subsections. -/
theorem Section.strongInduction (P : Section → Prop)
    (h : ∀ i t p st tx subs, (∀ s ∈ subs, P s) → P (Section.mk i t p st tx subs)) :
    ∀ s, P s
  | .mk i t p st tx subs =>
    h i t p st tx subs (fun s hs =>
      have : sizeOf s < sizeOf (Section.mk i t p st tx subs) := by
        have hlt := List.sizeOf_lt_of_mem hs
        simp only [Section.mk.sizeOf_spec]
        omega
      Section.strongInduction P h s)
termination_by s => sizeOf s

/-- A successful association-list lookup witnesses membership of the pair. -/
theorem lookup_mem {α : Type} {m : List (String × α)} {k : String} {v : α}
    (h : List.lookup k m = some v) : (k, v) ∈ m := by
  induction m with
  | nil => simp [List.lookup] at h
  | cons p rest ih =>
    rw [List.lookup] at h
    cases hk : (k == p.1) with
    | true =>
      rw [hk] at h
      simp at h
      have hk2 : k = p.1 := eq_of_beq hk
      subst hk2
      subst h
      simp
    | false =>
      rw [hk] at h
      exact .tail _ (ih h)

/-- The source's iterative refine loop computes exactly a left fold of the
refiner over the iterated items. -/
theorem refineLoop_eq_foldl (refiner : RefineState → SectionItem → RefineState)
    (l : List SectionItem) (acc : RefineState) :
    refineLoop refiner acc l = List.foldl refiner acc l := by
  induction l generalizing acc with
  | nil => rfl
  | cons x xs ih => simp [refineLoop, List.foldl, ih]

/-- When every id of the list resolves to a value whose attribute reads
succeed and yield a record carrying that id, the fetch loop succeeds and the
returned records carry exactly the ids of the list, in order. -/
theorem fetchLoop_ok_of_resolves {α : Type} (getRec : α → Except PyErr FetchRecord)
    (m : List (String × α)) (l : List String)
    (h : ∀ i ∈ l, ∃ v r, List.lookup i m = some v ∧ getRec v = .ok r ∧ r.id = i) :
    ∃ rs, fetchLoop getRec m l = .ok rs ∧ rs.map FetchRecord.id = l := by
  induction l with
  | nil => exact ⟨[], rfl, rfl⟩
  | cons i rest ih =>
    obtain ⟨v, r, hv, hr, hid⟩ := h i (.head _)
    obtain ⟨rs, hrs, hmap⟩ := ih (fun j hj => h j (.tail _ hj))
    refine ⟨r :: rs, ?_, ?_⟩
    · simp [fetchLoop, hv, hr, hrs]
    · simp [hmap, hid]

/-- When every value present in the mapping would resolve, but some id of the
list is absent, the fetch loop fails with a KeyError naming an absent id. -/
theorem fetchLoop_keyError_of_missing {α : Type} (getRec : α → Except PyErr FetchRecord)
    (m : List (String × α)) (l : List String)
    (hres : ∀ k v, List.lookup k m = some v → ∃ r, getRec v = .ok r)
    (hmiss : ∃ i ∈ l, List.lookup i m = none) :
    ∃ j, fetchLoop getRec m l = .error (.keyError j) ∧ List.lookup j m = none := by
  induction l with
  | nil => simp at hmiss
  | cons i rest ih =>
    cases hv : List.lookup i m with
    | none => exact ⟨i, by simp [fetchLoop, hv], hv⟩
    | some v =>
      obtain ⟨r, hr⟩ := hres i v hv
      have hmiss' : ∃ j ∈ rest, List.lookup j m = none := by
        obtain ⟨j, hj, hjn⟩ := hmiss
        cases hj with
        | head =>
          rw [hv] at hjn
          cases hjn
        | tail _ hj2 => exact ⟨j, hj2, hjn⟩
      obtain ⟨j, hj, hjn⟩ := ih hmiss'
      exact ⟨j, by simp [fetchLoop, hv, hr, hj], hjn⟩

/-- Membership in the looked-up nodes of a list of subtrees is membership in
the looked-up nodes of one of its members. -/
theorem mem_needingList (n : Section) : ∀ (l : List Section),
    (n ∈ needingList l ↔ ∃ c ∈ l, n ∈ sectionsNeedingSummary c) := by
  intro l
  induction l with
  | nil => simp [needingList]
  | cons s rest ih => simp [needingList, List.mem_append, ih]

/-- A successful projection of a subsection list means every member projected
successfully. -/
theorem csmList_ok_member (summ : List (String × SectionSummaryOutput)) :
    ∀ (l : List Section) (x : List PyObj), csmList summ l = .ok x →
      ∀ c ∈ l, ∃ y, create_structured_metadata summ c = .ok y := by
  intro l
  induction l with
  | nil =>
    intro x _ c hc
    cases hc
  | cons s rest ih =>
    intro x hx c hc
    cases hcs : create_structured_metadata summ s with
    | error e => simp [csmList, hcs] at hx
    | ok y =>
      cases hrest : csmList summ rest with
      | error e => simp [csmList, hcs, hrest] at hx
      | ok ys =>
        cases hc with
        | head => exact ⟨y, hcs⟩
        | tail _ hc2 => exact ih ys hrest c hc2

/-- A successful projection implies that every node needing a summary has its
id present in the summary mapping. -/
theorem csm_ok_all_present (summ : List (String × SectionSummaryOutput)) :
    ∀ s : Section, ∀ x, create_structured_metadata summ s = .ok x →
      ∀ n ∈ sectionsNeedingSummary s, (List.lookup n.id summ).isSome := by
  apply Section.strongInduction
  intro i t p st tx subs ih x hx n hn
  by_cases hst : st = some "document"
  · cases hl : csmList summ subs with
    | error e => simp [create_structured_metadata, hst, hl] at hx
    | ok l =>
      rw [sectionsNeedingSummary] at hn
      rw [if_pos hst] at hn
      rw [List.nil_append] at hn
      obtain ⟨c, hc, hnc⟩ := (mem_needingList n subs).1 hn
      obtain ⟨y, hy⟩ := csmList_ok_member summ subs l hl c hc
      exact ih c hc y hy n hnc
  · cases hlook : List.lookup i summ with
    | none => simp [create_structured_metadata, hst, hlook] at hx
    | some resp =>
      cases ht : Section.title_clean (Section.mk i t p st tx subs) with
      | error e => simp [create_structured_metadata, hst, hlook, ht] at hx
      | ok tc =>
        cases hl : csmList summ subs with
        | error e => simp [create_structured_metadata, hst, hlook, ht, hl] at hx
        | ok l =>
          rw [sectionsNeedingSummary] at hn
          rw [if_neg hst] at hn
          rw [List.singleton_append] at hn
          cases hn with
          | head => simp [Section.id, hlook]
          | tail _ hn2 =>
            obtain ⟨c, hc, hnc⟩ := (mem_needingList n subs).1 hn2
            obtain ⟨y, hy⟩ := csmList_ok_member summ subs l hl c hc
            exact ih c hc y hy n hnc

/-- The key property carried through the projector error analysis: a failing
projection of this subtree, on a tree whose looked-up nodes all have titles,
is a KeyError naming an id absent from the mapping. -/
def ErrKeyProp (summ : List (String × SectionSummaryOutput)) (c : Section) : Prop :=
  ∀ e, create_structured_metadata summ c = .error e →
    (∀ n ∈ sectionsNeedingSummary c, n.title ≠ none) →
    ∃ j, e = .keyError j ∧ List.lookup j summ = none

/-- A failing projection of a subsection list whose members all satisfy the
error property is a KeyError on an absent id. -/
theorem csmList_error_of (summ : List (String × SectionSummaryOutput)) :
    ∀ (l : List Section), (∀ c ∈ l, ErrKeyProp summ c) →
      ∀ e, csmList summ l = .error e → (∀ n ∈ needingList l, n.title ≠ none) →
        ∃ j, e = .keyError j ∧ List.lookup j summ = none := by
  intro l
  induction l with
  | nil =>
    intro _ e he _
    simp [csmList] at he
  | cons s rest ih =>
    intro hmem e he htitles
    cases hcs : create_structured_metadata summ s with
    | error e1 =>
      have he1 : e1 = e := by
        simp [csmList, hcs] at he
        exact he
      subst he1
      exact hmem s (.head _) e1 hcs (fun n hn =>
        htitles n (by
          rw [needingList]
          exact List.mem_append.2 (Or.inl hn)))
    | ok y =>
      cases hrest : csmList summ rest with
      | error e2 =>
        have he2 : e2 = e := by
          simp [csmList, hcs, hrest] at he
          exact he
        subst he2
        exact ih (fun c hc => hmem c (.tail _ hc)) e2 hrest (fun n hn =>
          htitles n (by
            rw [needingList]
            exact List.mem_append.2 (Or.inr hn)))
      | ok ys => simp [csmList, hcs, hrest] at he

/-- A failing projection of a tree whose looked-up nodes all have titles is a
KeyError naming an id absent from the mapping. -/
theorem csm_error_of (summ : List (String × SectionSummaryOutput)) :
    ∀ s : Section, ErrKeyProp summ s := by
  apply Section.strongInduction
  intro i t p st tx subs ih e he htitles
  by_cases hst : st = some "document"
  · cases hl : csmList summ subs with
    | error e1 =>
      have he1 : e1 = e := by
        simp [create_structured_metadata, hst, hl] at he
        exact he
      subst he1
      refine csmList_error_of summ subs ih e1 hl (fun n hn => htitles n ?_)
      rw [sectionsNeedingSummary]
      rw [if_pos hst]
      rw [List.nil_append]
      exact hn
    | ok l => simp [create_structured_metadata, hst, hl] at he
  · cases hlook : List.lookup i summ with
    | none =>
      have hkey : e = .keyError i := by
        simp [create_structured_metadata, hst, hlook] at he
        exact he.symm
      exact ⟨i, hkey, hlook⟩
    | some resp =>
      have htSelf : t ≠ none := by
        have := htitles (Section.mk i t p st tx subs) (by
          rw [sectionsNeedingSummary]
          rw [if_neg hst]
          rw [List.singleton_append]
          exact .head _)
        simpa [Section.title] using this
      cases ht : Section.title_clean (Section.mk i t p st tx subs) with
      | error e1 =>
        exfalso
        cases htv : t with
        | none => exact htSelf htv
        | some tv =>
          rw [Section.title_clean] at ht
          rw [show Section.title (Section.mk i t p st tx subs) = t from rfl] at ht
          rw [htv] at ht
          cases ht
      | ok tc =>
        cases hl : csmList summ subs with
        | error e1 =>
          have he1 : e1 = e := by
            simp [create_structured_metadata, hst, hlook, ht, hl] at he
            exact he
          subst he1
          refine csmList_error_of summ subs ih e1 hl (fun n hn => htitles n ?_)
          rw [sectionsNeedingSummary]
          rw [if_neg hst]
          rw [List.singleton_append]
          exact .tail _ hn
        | ok l => simp [create_structured_metadata, hst, hlook, ht, hl] at he

/-- C1: the spec claims summarize returns the completed summary mapping, with
summarize([]) returning an empty mapping.  The source of create_summaries_chain
builds the summary dict but contains no return statement, so the Python call
returns None; evaluated here at the empty section list, where the claimed
result would be the empty mapping. -/
theorem create_summaries_chain_returns_none :
    (∀ summarizer : String → String → Option String,
      create_summaries_chain summarizer [] = .ok none) ∧
    Except.ok (none : Option (List (String × Option String))) ≠
      (Except.ok (some []) : Except PyErr (Option (List (String × Option String)))) := by
  refine ⟨fun summarizer => rfl, ?_⟩
  simp

/-- C2: the spec claims a direct-text selection response is returned verbatim
with zero refine steps.  In the source the direct-content branch returns the
content string, and the refine for-loop then iterates that string character by
character: at the direct response "No idea" (7 characters) the loop runs 7
refine steps and returns the last refine output instead of the content. -/
theorem direct_content_refines_characters :
    generic_question_chain getRecOptStr (fun _ _ => RefineState.mk "X" ["9"])
      ([] : List (String × Option String)) (LLMResponse.mk "No idea" none) =
      .ok (RefineState.mk "X" ["9"]) ∧
    (FetchedSections.text "No idea").toItems.length = 7 ∧
    Except.ok (RefineState.mk "X" ["9"]) ≠
      (Except.ok (RefineState.mk "No idea" []) : Except PyErr RefineState) := by
  refine ⟨rfl, rfl, ?_⟩
  simp

/-- C3: whenever the selection response dispatches a fetch_sections tool call
(empty content, matching tool name) and the fetch succeeds with records rs,
generic_question_chain returns exactly the left fold of the refine step over
rs from the empty initial state — the last refine step's output, or the
initial state when rs is empty. -/
theorem refine_result_is_foldl {α : Type} (getRec : α → Except PyErr FetchRecord)
    (refiner : RefineState → SectionItem → RefineState)
    (m : List (String × α)) (response : LLMResponse) (fc : FunctionCall)
    (rs : List FetchRecord)
    (hcontent : response.content = "")
    (hcall : response.function_call = some fc)
    (hname : fc.name = "fetch_sections")
    (hfetch : FetchSectionsTool.run getRec m fc.reasoning fc.section_ids = .ok rs) :
    generic_question_chain getRec refiner m response =
      .ok (List.foldl refiner (RefineState.mk "" [])
        (rs.map SectionItem.record)) := by
  simp [generic_question_chain, parse_function_output, hcall, hcontent, hname,
    hfetch, FetchedSections.toItems, refineLoop_eq_foldl]

/-- Witness for C3: one stored section with id 3.1, a selection response
dispatching fetch_sections on it, and a constant refiner. -/
theorem refine_result_is_foldl_witness :
    generic_question_chain getRecSection (fun _ _ => RefineState.mk "ans" ["3.1"])
      [("3.1", Section.mk "3.1" (some "3.1 Revenue") [4] none "Revenue was 10" [])]
      (LLMResponse.mk "" (some (FunctionCall.mk "fetch_sections" "relevant" ["3.1"]))) =
      .ok (List.foldl (fun _ _ => RefineState.mk "ans" ["3.1"]) (RefineState.mk "" [])
        ([FetchRecord.mk "Revenue" "3.1" "Revenue was 10"].map SectionItem.record)) :=
  refine_result_is_foldl getRecSection _ _ _ _ _ rfl rfl rfl rfl

/-- C4: for known section ids stored under their own id with a present title,
FetchSectionsTool._run returns its records sorted by section id ascending, and
any permutation of the supplied id list (under any reasoning strings) yields
the identical output. -/
theorem fetch_sorted_perm_invariant (m : List (String × Section)) (r1 r2 : String)
    (ids1 ids2 : List String) (hperm : ids1.Perm ids2)
    (hknown : ∀ i ∈ ids1, ∃ s, List.lookup i m = some s ∧ Section.id s = i ∧
      Section.title s ≠ none) :
    FetchSectionsTool.run getRecSection m r1 ids1 =
      FetchSectionsTool.run getRecSection m r2 ids2 ∧
    ∃ rs, FetchSectionsTool.run getRecSection m r1 ids1 = .ok rs ∧
      List.Sorted (· ≤ ·) (rs.map FetchRecord.id) := by
  have hsorteq : List.insertionSort (· ≤ ·) ids1 = List.insertionSort (· ≤ ·) ids2 := by
    have hp : (List.insertionSort (· ≤ ·) ids1).Perm (List.insertionSort (· ≤ ·) ids2) :=
      (List.perm_insertionSort _ ids1).trans
        (hperm.trans (List.perm_insertionSort _ ids2).symm)
    exact List.eq_of_perm_of_sorted hp
      (List.sorted_insertionSort _ ids1) (List.sorted_insertionSort _ ids2)
  have hres : ∀ i ∈ List.insertionSort (· ≤ ·) ids1, ∃ v r,
      List.lookup i m = some v ∧ getRecSection v = .ok r ∧ FetchRecord.id r = i := by
    intro i hi
    have hi1 : i ∈ ids1 := (List.perm_insertionSort _ ids1).mem_iff.1 hi
    obtain ⟨s, hs, hid, ht⟩ := hknown i hi1
    cases htv : Section.title s with
    | none => exact absurd htv ht
    | some tv =>
      refine ⟨s, FetchRecord.mk (String.mk (pyLstrip (dropBlocks tv.data)))
        (Section.id s) (Section.text s), hs, ?_, hid⟩
      simp [getRecSection, Section.title_clean, htv]
  obtain ⟨rs, hrs, hmap⟩ := fetchLoop_ok_of_resolves getRecSection m _ hres
  refine ⟨?_, rs, ?_, ?_⟩
  · unfold FetchSectionsTool.run
    rw [hsorteq]
  · unfold FetchSectionsTool.run
    exact hrs
  · rw [hmap]
    exact List.sorted_insertionSort _ ids1

/-- Witness for C4: two stored sections fetched with the ids supplied in
descending order and in ascending order. -/
theorem fetch_sorted_perm_invariant_witness :
    FetchSectionsTool.run getRecSection
      [("1.1", Section.mk "1.1" (some "1.1 One") [] none "one text" []),
       ("2.2", Section.mk "2.2" (some "2.2 Two") [] none "two text" [])]
      "" ["2.2", "1.1"] =
    FetchSectionsTool.run getRecSection
      [("1.1", Section.mk "1.1" (some "1.1 One") [] none "one text" []),
       ("2.2", Section.mk "2.2" (some "2.2 Two") [] none "two text" [])]
      "" ["1.1", "2.2"] ∧
    ∃ rs, FetchSectionsTool.run getRecSection
      [("1.1", Section.mk "1.1" (some "1.1 One") [] none "one text" []),
       ("2.2", Section.mk "2.2" (some "2.2 Two") [] none "two text" [])]
      "" ["2.2", "1.1"] = .ok rs ∧
      List.Sorted (· ≤ ·) (rs.map FetchRecord.id) :=
  fetch_sorted_perm_invariant _ "" "" ["2.2", "1.1"] ["1.1", "2.2"]
    (List.Perm.swap "1.1" "2.2" [])
    (by
      intro i hi
      rcases List.mem_cons.1 hi with h1 | h2
      · subst h1
        exact ⟨Section.mk "2.2" (some "2.2 Two") [] none "two text" [], rfl, rfl, by
          simp [Section.title]⟩
      · rcases List.mem_cons.1 h2 with h3 | h4
        · subst h3
          exact ⟨Section.mk "1.1" (some "1.1 One") [] none "one text" [], rfl, rfl, by
            simp [Section.title]⟩
        · cases h4)

/-- C5: both lookups fail fast on a missing id.  First part: when the stored
sections all have titles and some requested id is absent from the mapping,
FetchSectionsTool._run fails with a KeyError naming an absent id.  Second
part: when the looked-up (non-document) nodes of a tree all have titles and
some such node's id is absent from the summary mapping, the metadata
projection fails with a KeyError naming an absent id. -/
theorem missing_id_lookups_fail :
    (∀ (m : List (String × Section)) (reasoning : String) (ids : List String),
      (∀ p ∈ m, Section.title p.2 ≠ none) →
      (∃ i ∈ ids, List.lookup i m = none) →
      ∃ j, FetchSectionsTool.run getRecSection m reasoning ids = .error (.keyError j) ∧
        List.lookup j m = none) ∧
    (∀ (summ : List (String × SectionSummaryOutput)) (s : Section),
      (∀ n ∈ sectionsNeedingSummary s, Section.title n ≠ none) →
      (∃ n ∈ sectionsNeedingSummary s, List.lookup (Section.id n) summ = none) →
      ∃ j, create_structured_metadata summ s = .error (.keyError j) ∧
        List.lookup j summ = none) := by
  constructor
  · intro m reasoning ids htitle hmiss
    unfold FetchSectionsTool.run
    apply fetchLoop_keyError_of_missing
    · intro k v hv
      have ht := htitle (k, v) (lookup_mem hv)
      cases htv : Section.title v with
      | none => exact absurd htv ht
      | some tv =>
        refine ⟨FetchRecord.mk (String.mk (pyLstrip (dropBlocks tv.data)))
          (Section.id v) (Section.text v), ?_⟩
        simp [getRecSection, Section.title_clean, htv]
    · obtain ⟨i, hi, hn⟩ := hmiss
      exact ⟨i, (List.perm_insertionSort _ ids).mem_iff.2 hi, hn⟩
  · intro summ s htitles hmiss
    cases hcsm : create_structured_metadata summ s with
    | ok x =>
      exfalso
      obtain ⟨n, hn, hnone⟩ := hmiss
      have hsome := csm_ok_all_present summ s x hcsm n hn
      rw [hnone] at hsome
      cases hsome
    | error e =>
      obtain ⟨j, hj, hjn⟩ := csm_error_of summ s e hcsm htitles
      refine ⟨j, ?_, hjn⟩
      rw [hj]

/-- Witness for C5: a fetch over a one-entry mapping with an unknown id, and a
projection of a single non-document node against an empty summary mapping. -/
theorem missing_id_lookups_fail_witness :
    (∃ j, FetchSectionsTool.run getRecSection
        [("1.1", Section.mk "1.1" (some "A") [] none "" [])] "" ["9.9"] =
        .error (.keyError j) ∧
      List.lookup j [("1.1", Section.mk "1.1" (some "A") [] none "" [])] = none) ∧
    (∃ j, create_structured_metadata [] (Section.mk "1.1" (some "A") [] none "" []) =
        .error (.keyError j) ∧
      List.lookup j ([] : List (String × SectionSummaryOutput)) = none) := by
  constructor
  · exact missing_id_lookups_fail.1
      [("1.1", Section.mk "1.1" (some "A") [] none "" [])] "" ["9.9"]
      (by decide) ⟨"9.9", by simp, rfl⟩
  · exact missing_id_lookups_fail.2 [] (Section.mk "1.1" (some "A") [] none "" [])
      (by
        intro n hn
        simp [sectionsNeedingSummary, needingList] at hn
        subst hn
        simp [Section.title])
      ⟨Section.mk "1.1" (some "A") [] none "" [],
        by simp [sectionsNeedingSummary, needingList], rfl⟩

/-- Counterexample for C6: at a concrete document root, the record emitted by
the projection has the single top-level field "document" and in particular no
top-level "title" field, refuting the claim that its fields are exactly title
and sections. -/
theorem projectRootWrappedCex :
    topKeysOf (create_structured_metadata []
      (Section.mk "root" (some "T") [] (some "document") "" [])) = ["document"] ∧
    (topKeysOf (create_structured_metadata []
      (Section.mk "root" (some "T") [] (some "document") "" []))).contains "title" = false := by
  refine ⟨rfl, by decide⟩

/-- C6 (amended): for every root node (section_type "document") the projection
wraps the root output in a dict with the single key "document"; the inner
record has exactly the fields title and sections — the title taken verbatim
and the subsections projected in stored order — and no id, pages or summary
fields. -/
theorem projectRootFields (summaries : List (String × SectionSummaryOutput))
    (s : Section) (hdoc : Section.section_type s = some "document") :
    create_structured_metadata summaries s =
      match csmList summaries (Section.subsections s) with
      | .error e => .error e
      | .ok l => .ok (.dict [("document", .dict [("title", pyOfOptStr (Section.title s)),
          ("sections", .list l)])]) := by
  cases s with
  | mk i t p st tx subs =>
    have hst : st = some "document" := by simpa [Section.section_type] using hdoc
    cases hl : csmList summaries subs with
    | error e =>
      simp [create_structured_metadata, hst, Section.subsections, Section.title, hl]
    | ok l =>
      simp [create_structured_metadata, hst, Section.subsections, Section.title, hl]

/-- Witness for C6: the amended projection shape evaluated at a childless
document root. -/
theorem projectRootFieldsWitness :
    create_structured_metadata [] (Section.mk "root" (some "T") [] (some "document") "" []) =
      match csmList [] (Section.subsections
          (Section.mk "root" (some "T") [] (some "document") "" [])) with
      | .error e => .error e
      | .ok l => .ok (.dict [("document", .dict [("title", pyOfOptStr (Section.title
          (Section.mk "root" (some "T") [] (some "document") "" []))),
          ("sections", .list l)])]) :=
  projectRootFields [] (Section.mk "root" (some "T") [] (some "document") "" []) rfl

/-- Counterexample for C7: a freshly constructed Document has id equal to the
empty string, not the sentinel "root" — Section.__init__ assigns the empty
string to self.id, discarding its id argument. -/
theorem documentIdNotRootCex :
    Section.id (Document.init (some "T") none none) = "" ∧
    (Section.id (Document.init (some "T") none none) == "root") = false := by
  refine ⟨rfl, by decide⟩

/-- C7 (amended): every newly constructed Document has section_type
"document", and the value "root" is passed to the Section constructor but
discarded: the constructed id is the empty string. -/
theorem document_init_type_and_empty_id (title : Option String)
    (pages : Option (List Nat)) (subsections : Option (List Section)) :
    Section.section_type (Document.init title pages subsections) = some "document" ∧
    Section.id (Document.init title pages subsections) = "" :=
  ⟨rfl, rfl⟩

/-- Counterexample for C8: the cleanup of "Chapter 1.........." is not absent
— deleting the dot-leader run leaves "Chapter 1", which is neither purely
numeric nor empty. -/
theorem cleanup_chapter_dotleader_cex :
    ((InterimElement.mk (some "Chapter 1..........")).text == none) = false := by decide

/-- C8 (amended): the four-step cleanup order holds, but on the raw text
"Chapter 1.........." it returns "Chapter 1" (the dot-leader run is deleted
and the remainder kept); purely numeric and empty inputs are discarded and
ordinary text is kept unchanged. -/
theorem cleanup_four_step_examples :
    (InterimElement.mk (some "Chapter 1..........")).text = some "Chapter 1" ∧
    (InterimElement.mk (some "42")).text = none ∧
    (InterimElement.mk (some "")).text = none ∧
    (InterimElement.mk (some "Revenue grew 42%")).text = some "Revenue grew 42%" := by
  refine ⟨by decide, by decide, by decide, by decide⟩

/-- C9: FetchSectionsTool._run reads the attributes title_clean, id and text
from the mapping values; on a mapping of the declared SectionSummaryDict shape
(optional strings) every non-empty id list whose ids are all present makes the
tool fail with an AttributeError at the first resolved id. -/
theorem fetch_on_optstr_values_fails (m : List (String × Option String))
    (reasoning : String) (ids : List String) (hne : ids ≠ [])
    (hall : ∀ i ∈ ids, (List.lookup i m).isSome) :
    FetchSectionsTool.run getRecOptStr m reasoning ids =
      .error (.attributeError "title_clean") := by
  unfold FetchSectionsTool.run
  cases hs : List.insertionSort (· ≤ ·) ids with
  | nil =>
    exfalso
    apply hne
    have hp := List.perm_insertionSort (· ≤ ·) ids
    rw [hs] at hp
    exact hp.symm.eq_nil
  | cons j rest =>
    have hj : j ∈ ids := by
      have hp := List.perm_insertionSort (· ≤ ·) ids
      rw [hs] at hp
      exact hp.mem_iff.1 (.head _)
    obtain ⟨v, hv⟩ := Option.isSome_iff_exists.1 (hall j hj)
    simp [fetchLoop, hv, getRecOptStr]

/-- Witness for C9: a one-entry mapping of the declared optional-string shape
with its single id requested. -/
theorem fetch_on_optstr_values_fails_witness :
    FetchSectionsTool.run getRecOptStr [("a", (some "sum" : Option String))] "r" ["a"] =
      .error (.attributeError "title_clean") :=
  fetch_on_optstr_values_fails [("a", some "sum")] "r" ["a"] (by decide) (by decide)

/-- C10: title_clean is only defined when the title is present — for every
section whose title is None, the regex substitution raises a TypeError. -/
theorem title_clean_requires_title (s : Section) (h : Section.title s = none) :
    Section.title_clean s = .error (.typeError "expected string or bytes-like object") := by
  simp [Section.title_clean, h]

/-- Witness for C10: a section constructed without a title. -/
theorem title_clean_requires_title_witness :
    Section.title_clean (Section.mk "1" none [] none "" []) =
      .error (.typeError "expected string or bytes-like object") :=
  title_clean_requires_title (Section.mk "1" none [] none "" []) rfl
